import Mathlib

/-!
Shallow embedding of the resource-to-REST reconciliation engine of tower-cli
(src/lib/tower_cli/models.py): the Field descriptor, the schema construction
performed by ResourceMeta, and the Resource operations read / write / delete /
get / create / modify together with the internal helper lookup.

The HTTP transport (src/lib/tower_cli/api.py) is an external collaborator; it
is modelled as a structure of response oracles, and every engine operation
additionally returns the list of HTTP calls it issued, so that statements
about which wire calls happen (or do not happen) can be made precisely.
-/

namespace TowerCli

/-- JSON-ish scalar values, including `null` for Python's None (the "unset"
sentinel stripped by `Resource.write`). -/
inductive Value where
  | null
  | str (s : String)
  | int (n : Int)
  | bool (b : Bool)
  deriving DecidableEq, Repr

/-- A keyword map (Python `**kwargs` dict / JSON object body), as an
association list.  Python dicts have no duplicate keys; claims that depend on
key lookup carry a `Nodup` hypothesis on the key list. -/
abbrev Params := List (String × Value)

/-- Keys of a keyword map. -/
def keysOf (ps : Params) : List String := ps.map Prod.fst

/-- A remote record: a JSON object with a numeric primary key `id` plus
ordinary fields (spec section 3, "Remote Record"). -/
structure Record where
  id : Nat
  fields : Params
  deriving DecidableEq, Repr

/-- Python `record.get(k, None)` on a record JSON object: the `id` key holds
the primary key, any other key is looked up among the fields, absent keys
give None. -/
def Record.getVal (r : Record) (k : String) : Value :=
  if k = "id" then .int r.id else ((r.fields.lookup k).getD .null)

/-- Python `existing_data.get(k, None)` where `existing_data` is either a
record or the empty dict returned by a soft-failed lookup
(models.py:358, 569). -/
def existingGet : Option Record → String → Value
  | Option.none, _ => .null
  | some r, k => r.getVal k

/-- Error taxonomy of the engine.  `NotFound`, `MultipleResults` and
`AuthError` are defined in src/lib/tower_cli/utils/exceptions.py.  Modelled
from the spec: the `BadRequest` and `Found` exception classes raised by
models.py (and the transport-level `Forbidden` and `ServerError` raised by
api.py) are not defined under src/lib/tower_cli/utils/exceptions.py in this
snapshot; their kinds are taken from the spec's section 7 error taxonomy.
`crash` stands for a raw Python exception outside the taxonomy
(e.g. IndexError). -/
inductive Err where
  | NotFound (msg : String)
  | MultipleResults (msg : String)
  | BadRequest (msg : String)
  | Found (msg : String)
  | AuthError (msg : String)
  | Forbidden (msg : String)
  | ServerError (msg : String)
  | crash (msg : String)
  deriving DecidableEq, Repr

/-- One HTTP call issued by the engine: a list GET against the collection
endpoint, a detail GET against `endpoint/pk/`, a POST, a PATCH, or a
DELETE. -/
inductive Call where
  | getList (params : Params)
  | getDetail (pk : Nat) (params : Params)
  | post (data : Params)
  | patch (pk : Nat) (data : Params)
  | del (pk : Nat)
  deriving DecidableEq, Repr

/-- Whether a call is a mutating write (POST or PATCH). -/
def Call.isWrite : Call → Bool
  | .post _ => true
  | .patch _ _ => true
  | _ => false

/-- Whether a call mutates remote state at all (POST, PATCH or DELETE). -/
def Call.isMutating : Call → Bool
  | .post _ => true
  | .patch _ _ => true
  | .del _ => true
  | _ => false

/-- The paginated list payload `r.json()` of a collection GET; the engine
reads its `count` and `results` keys (models.py:308, 324, 329). -/
structure ListResp where
  count : Nat
  results : List Record
  deriving DecidableEq, Repr

/-- The HTTP transport (src/lib/tower_cli/api.py `client`), an external
collaborator: response oracles for each verb the engine uses.  A transport
error (404 and friends) is an `Err` in the `error` case. -/
structure Client where
  getList : Params → Except Err ListResp
  getDetail : Nat → Params → Except Err Record
  post : Params → Except Err Record
  patch : Nat → Params → Except Err Record
  delete : Nat → Except Err Unit

/-- Field descriptor (models.py:38-58 `Field.__init__`), with the source's
defaults: `filterable=True, password=False, read_only=False, required=True,
unique=False`.  `name` is assigned at schema construction; `number` is the
global declaration counter used only for sorting. -/
structure Field where
  name : String := ""
  default : Value := .null
  filterable : Bool := true
  password : Bool := false
  read_only : Bool := false
  required : Bool := true
  unique : Bool := false
  number : Nat := 0
  deriving DecidableEq, Repr

/-- Stable insertion of a field into a number-sorted list. -/
def insertByNumber (f : Field) : List Field → List Field
  | [] => [f]
  | g :: gs => if f.number < g.number then f :: g :: gs else g :: insertByNumber f gs

/-- Python `sorted(fields)` under `Field.__lt__` (comparison on `number`,
models.py:60-61, 128). -/
def sortByNumber : List Field → List Field
  | [] => []
  | f :: fs => insertByNumber f (sortByNumber fs)

/-- A resource schema: the data computed by `ResourceMeta.__new__`
(models.py:113-142) for a Resource subclass. -/
structure Schema where
  endpoint : String
  fields : List Field
  unique_fields : List String
  deriving DecidableEq, Repr

/-- The error message of the endpoint check (models.py:134). -/
def endpointErrMsg : String := "Resource subclasses must have an `endpoint`."

/-- Python `s.endswith('/')`: the last character of the string is a
slash. -/
def endsWithSlash (s : String) : Bool := s.data.getLast? == some '/'

/-- Schema construction, `ResourceMeta.__new__` (models.py:113-142): assign
each field its attribute name, collect the unique-field names, refuse a
missing or empty endpoint, normalize the endpoint to end with a slash, and
sort the fields by declaration number. -/
def mkSchema (endpoint : Option String) (attrs : List (String × Field)) :
    Except String Schema :=
  let fields := attrs.map (fun kv => { kv.2 with name := kv.1 })
  let uniques := (fields.filter (fun f => f.unique)).map (fun f => f.name)
  let ep := endpoint.getD ""
  if ep = "" then
    .error endpointErrMsg
  else
    let ep := if endsWithSlash ep then ep else ep ++ "/"
    .ok { endpoint := ep, fields := sortByNumber fields, unique_fields := uniques }

/-- Python truthiness of the `pk` argument (`if pk:` / `if not pk:`):
both None and 0 are falsy (models.py:303, 371, 437). -/
def pkTruthy : Option Nat → Bool
  | Option.none => false
  | some n => n != 0

/-- `Resource.read` (models.py:285-334).  With a truthy pk it issues a detail
GET and wraps the object as a one-element payload; otherwise it issues a
collection GET, then applies the zero-result and multiple-result checks. -/
def read (c : Client) (pk : Option Nat)
    (fail_on_no_results fail_on_multiple_results : Bool) (kwargs : Params) :
    Except Err ListResp × List Call :=
  if pkTruthy pk then
    (match c.getDetail (pk.getD 0) kwargs with
     | .error e => .error e
     | .ok r => .ok ⟨1, [r]⟩,
     [.getDetail (pk.getD 0) kwargs])
  else
    (match c.getList kwargs with
     | .error e => .error e
     | .ok resp =>
       if fail_on_no_results && resp.count == 0 then
         .error (.NotFound "The requested object could not be found.")
       else if fail_on_multiple_results && decide (2 ≤ resp.count) then
         .error (.MultipleResults ("Expected one result, got " ++
             toString resp.count ++ ". Tighten your criteria."))
       else
         .ok resp,
     [.getList kwargs])

/-- `Resource.get` (models.py:461-472): `read` with both fail flags forced
true, returning `results[0]` of the payload (an empty `results` list under a
lying transport would be a raw IndexError, modelled as `Err.crash`). -/
def get (c : Client) (pk : Option Nat) (kwargs : Params) :
    Except Err Record × List Call :=
  (match (read c pk true true kwargs).1 with
   | .error e => .error e
   | .ok resp =>
     match resp.results with
     | [] => .error (.crash "IndexError: list index out of range")
     | r :: _ => .ok r,
   (read c pk true true kwargs).2)

/-- The projection of a keyword map down to the schema's unique-field keys,
`read_params` in `Resource._lookup` (models.py:547-550). -/
def lookupParams (s : Schema) (kwargs : Params) : Params :=
  kwargs.filter (fun kv => decide (kv.1 ∈ s.unique_fields))

/-- The error message of the empty-projection check (models.py:555-557). -/
def lookupBadRequestMsg : String :=
  "Cannot reliably determine which record to write. Include an ID or unique fields."

/-- `Resource._lookup` (models.py:538-569): project the filters onto the
unique fields, refuse an empty projection, fetch through `get`, fail when a
match was found but `fail_on_found` is set, and turn a `NotFound` into the
empty record when `fail_on_missing` is unset.  `Option.none` models the empty
dict return value. -/
def _lookup (s : Schema) (c : Client) (fail_on_missing fail_on_found : Bool)
    (kwargs : Params) : Except Err (Option Record) × List Call :=
  if (lookupParams s kwargs).isEmpty then
    (.error (.BadRequest lookupBadRequestMsg), [])
  else
    (match (get c Option.none (lookupParams s kwargs)).1 with
     | .ok r =>
       if fail_on_found then
         .error (.Found ("A record matching %s already exists, and " ++
           "you requested a failure in that case."))
       else
         .ok (some r)
     | .error (.NotFound m) =>
       if fail_on_missing then .error (.NotFound m)
       else .ok Option.none
     | .error e => .error e,
     (get c Option.none (lookupParams s kwargs)).2)

/-- Python's stripping of unset values from `kwargs` in `Resource.write`
(models.py:360-365): every key whose value is None is removed. -/
def stripNull (kwargs : Params) : Params :=
  kwargs.filter (fun kv => kv.2 != Value.null)

/-- The names of the schema's required fields, in field order
(models.py:387). -/
def requiredNames (s : Schema) : List String :=
  (s.fields.filter (fun f => f.required)).map (fun f => f.name)

/-- The required fields with no corresponding key in `kwargs`
(models.py:388). -/
def missingFields (s : Schema) (kwargs : Params) : List String :=
  (requiredNames s).filter (fun nm => !decide (nm ∈ keysOf kwargs))

/-- The no-op equality check of `Resource.write` (models.py:404-405): every
key present in `kwargs` equals the corresponding value of the existing
record (absent keys of the existing record read as None). -/
def matchesExisting (kwargs : Params) (existing : Option Record) : Bool :=
  kwargs.all (fun kv => kv.2 == existingGet existing kv.1)

/-- The result dict of `Resource.write` (models.py:396-400, 406-409,
423-426): `changed` plus an id that is the (possibly None) pk on the
short-circuit paths and the response id after an actual write. -/
structure WriteResult where
  changed : Bool
  id : Option Nat
  deriving DecidableEq, Repr

/-- Step 2 of `Resource.write` (models.py:369-382): with a falsy pk, resolve
the target through `_lookup` (with `fail_on_missing = not create_on_missing`)
and adopt the found record's id as pk; with a truthy pk, fetch the existing
record through `get(pk)`. -/
def resolveExisting (s : Schema) (c : Client) (pk : Option Nat)
    (create_on_missing fail_on_found : Bool) (kwargs : Params) :
    Except Err (Option Nat × Option Record) × List Call :=
  if pkTruthy pk then
    (match (get c pk []).1 with
     | .error e => .error e
     | .ok r => .ok (pk, some r),
     (get c pk []).2)
  else
    (match (_lookup s c (!create_on_missing) fail_on_found kwargs).1 with
     | .error e => .error e
     | .ok (some r) => .ok (some r.id, some r)
     | .ok Option.none => .ok (pk, Option.none),
     (_lookup s c (!create_on_missing) fail_on_found kwargs).2)

/-- Steps 3-6 of `Resource.write` (models.py:384-426), after the target has
been resolved: the required-field check (raised unconditionally, whether or
not a pk is at hand), the `force_on_exists` short-circuit, the no-op equality
short-circuit, and finally the actual POST (falsy pk) or PATCH (truthy
pk). -/
def writeFinish (s : Schema) (c : Client) (force_on_exists : Bool)
    (kwargs : Params) (pk1 : Option Nat) (existing : Option Record)
    (calls : List Call) : Except Err WriteResult × List Call :=
  let missing := missingFields s kwargs
  if !missing.isEmpty then
    (.error (.BadRequest ("Missing required fields: " ++
        String.intercalate ", " missing)), calls)
  else if pkTruthy pk1 && !force_on_exists then
    (.ok ⟨false, pk1⟩, calls)
  else if matchesExisting kwargs existing then
    (.ok ⟨false, pk1⟩, calls)
  else if pkTruthy pk1 then
    match c.patch (pk1.getD 0) kwargs with
    | .error e => (.error e, calls ++ [.patch (pk1.getD 0) kwargs])
    | .ok r => (.ok ⟨true, some r.id⟩, calls ++ [.patch (pk1.getD 0) kwargs])
  else
    match c.post kwargs with
    | .error e => (.error e, calls ++ [.post kwargs])
    | .ok r => (.ok ⟨true, some r.id⟩, calls ++ [.post kwargs])

/-- `Resource.write` (models.py:336-426): strip unset values, resolve the
target record, then run the required-field check, the two short-circuits and
the actual write. -/
def write (s : Schema) (c : Client) (pk : Option Nat)
    (create_on_missing fail_on_found force_on_exists : Bool)
    (kwargs0 : Params) : Except Err WriteResult × List Call :=
  let kwargs := stripNull kwargs0
  match resolveExisting s c pk create_on_missing fail_on_found kwargs with
  | (.error e, calls) => (.error e, calls)
  | (.ok (pk1, existing), calls) => writeFinish s c force_on_exists kwargs pk1 existing calls

/-- The result dict of `Resource.delete` (models.py:441, 451, 455). -/
structure DeleteResult where
  changed : Bool
  deriving DecidableEq, Repr

/-- The try/except block of `Resource.delete` (models.py:448-455): issue the
DELETE, turning a transport `NotFound` into `changed:false` unless
`fail_on_missing` is set. -/
def deleteCall (c : Client) (fail_on_missing : Bool) (p : Nat)
    (calls : List Call) : Except Err DeleteResult × List Call :=
  match c.delete p with
  | .ok _ => (.ok ⟨true⟩, calls ++ [.del p])
  | .error (.NotFound m) =>
    if fail_on_missing then (.error (.NotFound m), calls ++ [.del p])
    else (.ok ⟨false⟩, calls ++ [.del p])
  | .error e => (.error e, calls ++ [.del p])

/-- `Resource.delete` (models.py:428-455): with a falsy pk, resolve the
record through `_lookup` and return `changed:false` at once when nothing was
found; then issue the DELETE through `deleteCall` above. -/
def delete (s : Schema) (c : Client) (pk : Option Nat) (fail_on_missing : Bool)
    (kwargs : Params) : Except Err DeleteResult × List Call :=
  if pkTruthy pk then
    deleteCall c fail_on_missing (pk.getD 0) []
  else
    match (_lookup s c fail_on_missing false kwargs).1 with
    | .error e => (.error e, (_lookup s c fail_on_missing false kwargs).2)
    | .ok Option.none => (.ok ⟨false⟩, (_lookup s c fail_on_missing false kwargs).2)
    | .ok (some r) => deleteCall c fail_on_missing r.id
        (_lookup s c fail_on_missing false kwargs).2

/-- `Resource.create` (models.py:509-517): `write` with no pk and
`create_on_missing=True`, passing `fail_on_found` and `force_on_exists`
through (both default False at the CLI surface). -/
def create (s : Schema) (c : Client) (fail_on_found force_on_exists : Bool)
    (kwargs : Params) : Except Err WriteResult × List Call :=
  write s c Option.none true fail_on_found force_on_exists kwargs

/-- `Resource.modify` (models.py:519-536): `write` with the pk passed
through, `force_on_exists=True` and `fail_on_found` left at its default
False. -/
def modify (s : Schema) (c : Client) (pk : Option Nat)
    (create_on_missing : Bool) (kwargs : Params) :
    Except Err WriteResult × List Call :=
  write s c pk create_on_missing false true kwargs

/-- Does a record satisfy an equality filter (used by the concrete server
model below)? -/
def recMatches (ps : Params) (r : Record) : Bool :=
  ps.all (fun kv => r.getVal kv.1 == kv.2)

/-- The standard transport-level 404 message (api.py:98). -/
def notFoundMsg : String := "The requested object could not be found."

/-- A concrete transport client backed by a snapshot of server state: a list
of records plus the id the server would assign to the next created record.
List GETs filter by equality on the query params, detail GETs / PATCH /
DELETE find the record by id and 404 otherwise, POST answers with a fresh
record. -/
def serverClient (recs : List Record) (nextId : Nat) : Client where
  getList := fun ps =>
    let ms := recs.filter (recMatches ps)
    .ok ⟨ms.length, ms⟩
  getDetail := fun p _ =>
    match recs.find? (fun r => r.id == p) with
    | some r => .ok r
    | Option.none => .error (.NotFound notFoundMsg)
  post := fun data => .ok ⟨nextId, data⟩
  patch := fun p data =>
    match recs.find? (fun r => r.id == p) with
    | some r => .ok ⟨r.id, data ++ r.fields.filter
        (fun kv => !decide (kv.1 ∈ keysOf data))⟩
    | Option.none => .error (.NotFound notFoundMsg)
  delete := fun p =>
    if recs.any (fun r => r.id == p) then .ok ()
    else .error (.NotFound notFoundMsg)

/-- The `user` schema of the spec's concrete scenario (section 8): unique,
required `username`; optional `email`. -/
def userSchema : Schema :=
  { endpoint := "/users/"
  , fields :=
      [ { name := "username", required := true, unique := true, number := 0 }
      , { name := "email", required := false, unique := false, number := 1 } ]
  , unique_fields := ["username"] }

/-- The field declarations of the team resource
(src/lib/tower_cli/resources/team.py): unique `name`, `organization`,
optional `description`. -/
def teamAttrs : List (String × Field) :=
  [ ("name", { unique := true, number := 0 })
  , ("organization", { number := 1 })
  , ("description", { required := false, number := 2 }) ]

/-- The schema `mkSchema` builds from `teamAttrs` and endpoint `/teams`. -/
def teamSchema : Schema :=
  { endpoint := "/teams/"
  , fields :=
      [ { name := "name", unique := true, number := 0 }
      , { name := "organization", number := 1 }
      , { name := "description", required := false, number := 2 } ]
  , unique_fields := ["name"] }

/-- A test schema with a unique `username` and a further required field
`name`. -/
def authorSchema : Schema :=
  { endpoint := "/authors/"
  , fields :=
      [ { name := "username", required := true, unique := true, number := 0 }
      , { name := "name", required := true, unique := false, number := 1 } ]
  , unique_fields := ["username"] }

/-! Helper lemmas shared by several claims. -/

/-- A pair surviving the null-stripping has a non-null value. -/
theorem mem_stripNull_val_ne {kwargs : Params} {kv : String × Value}
    (h : kv ∈ stripNull kwargs) : kv.2 ≠ Value.null := by
  have := List.of_mem_filter h
  simpa using this

/-- Members of the stripped map are members of the original map. -/
theorem mem_of_mem_stripNull {kwargs : Params} {kv : String × Value}
    (h : kv ∈ stripNull kwargs) : kv ∈ kwargs :=
  List.mem_of_mem_filter h

/-- The no-op equality check against the empty existing record fails as soon
as the keyword map is nonempty and null-free: a stripped value never equals
None. -/
theorem matchesExisting_none_eq_false {l : Params}
    (hne : l ≠ []) (hv : ∀ kv ∈ l, kv.2 ≠ Value.null) :
    matchesExisting l Option.none = false := by
  cases hl : l with
  | nil => exact absurd hl hne
  | cons kv t =>
    have hkv : kv.2 ≠ Value.null := hv kv (by rw [hl]; exact List.mem_cons_self kv t)
    have hb : (kv.2 == Value.null) = false := by
      cases hb2 : kv.2 == Value.null
      · rfl
      · exact absurd (eq_of_beq hb2) hkv
    simp [matchesExisting, existingGet, hb]

/-- Key-based lookup in an association list with no duplicate keys finds the
member pair's value. -/
theorem lookup_eq_some_of_mem {l : Params} {kv : String × Value}
    (h : kv ∈ l) (hnd : (keysOf l).Nodup) : l.lookup kv.1 = some kv.2 := by
  induction l with
  | nil => cases h
  | cons a t ih =>
    obtain ⟨k, v⟩ := a
    rw [keysOf, List.map_cons, List.nodup_cons] at hnd
    rcases List.mem_cons.mp h with rfl | ht
    · simp [List.lookup]
    · have hne : kv.1 ≠ k := by
        intro he
        apply hnd.1
        rw [← he]
        exact List.mem_map.mpr ⟨kv, ht, rfl⟩
      have hb : (kv.1 == k) = false := by
        cases hb2 : kv.1 == k
        · rfl
        · exact absurd (eq_of_beq hb2) hne
      simpa [List.lookup, hb] using ih ht hnd.2

/-- A record whose fields are exactly the keyword map matches any equality
filter drawn from that map, provided keys are unique and `id` is not among
them. -/
theorem recMatches_of_subset {kwargs rp : Params} {n : Nat}
    (hsub : rp ⊆ kwargs) (hnd : (keysOf kwargs).Nodup)
    (hid : "id" ∉ keysOf kwargs) :
    recMatches rp ⟨n, kwargs⟩ = true := by
  rw [recMatches, List.all_eq_true]
  intro kv hkv
  have hm : kv ∈ kwargs := hsub hkv
  have hne : kv.1 ≠ "id" := by
    intro he
    apply hid
    rw [← he]
    exact List.mem_map.mpr ⟨kv, hm, rfl⟩
  simp [Record.getVal, hne, lookup_eq_some_of_mem hm hnd]

/-- Without a pk, the calls of a `get` are the single collection GET of its
filters. -/
theorem get_none_snd (c : Client) (rp : Params) :
    (get c Option.none rp).2 = [.getList rp] := rfl

/-- A lookup that returns (rather than failing on the empty-projection
check) saw a nonempty projection. -/
theorem lookupParams_ne_nil_of_lookup_ok {s : Schema} {c : Client}
    {fm ff : Bool} {kwargs : Params} {x : Option Record} {calls : List Call}
    (h : _lookup s c fm ff kwargs = (.ok x, calls)) :
    lookupParams s kwargs ≠ [] := by
  intro hnil
  rw [_lookup, hnil] at h
  simp at h

/-- The calls of a lookup: nothing at all (empty-projection failure), or the
single collection GET of the projected filters. -/
theorem lookup_snd (s : Schema) (c : Client) (fm ff : Bool) (kwargs : Params) :
    (_lookup s c fm ff kwargs).2 = []
    ∨ (_lookup s c fm ff kwargs).2 = [.getList (lookupParams s kwargs)] := by
  rw [_lookup]
  cases hE : (lookupParams s kwargs).isEmpty with
  | true => left; simp
  | false => right; simp [get_none_snd]

/-- When the resolved pk is falsy on both sides and the no-op equality check
fails, `writeFinish` does not depend on which falsy pk it received. -/
theorem writeFinish_falsy_pk_eq {s : Schema} {c : Client} {foe : Bool}
    {kwargs : Params} {p q : Option Nat} {existing : Option Record}
    {calls : List Call}
    (hp : pkTruthy p = false) (hq : pkTruthy q = false)
    (hm : matchesExisting kwargs existing = false) :
    writeFinish s c foe kwargs p existing calls
      = writeFinish s c foe kwargs q existing calls := by
  simp only [writeFinish, hp, hq, hm, Bool.false_and, Bool.false_eq_true, if_false]

/-- C1: the spec says the required-field check applies only on the create
path (no pk), so that `modify(pk=1, email=...)` on the user schema fetches
the record and PATCHes; the code runs the check unconditionally
(models.py:387-391, contradicting its own comment at models.py:385-386) and
the call dies with BadRequest after the initial GET, before any PATCH. -/
theorem c1_modify_with_pk_hits_required_check :
    modify userSchema (serverClient [⟨1, [("username", Value.str "alice")]⟩] 2)
        (some 1) false [("email", Value.str "a@x.com")]
      = (.error (.BadRequest "Missing required fields: username"),
         [.getDetail 1 []]) := by
  rfl

/-- C2 counterexample: a write whose every supplied key (`email`) equals the
existing record's value nevertheless fails with BadRequest, because the
required-field check precedes the no-op equality short-circuit and
`username` is absent; the claim says such a call returns changed:false. -/
theorem c2_counterexample :
    matchesExisting [("email", Value.str "x")]
        (some ⟨1, [("username", Value.str "alice"), ("email", Value.str "x")]⟩) = true
    ∧ write userSchema
        (serverClient [⟨1, [("username", Value.str "alice"), ("email", Value.str "x")]⟩] 2)
        (some 1) false false true [("email", Value.str "x")]
      = (.error (.BadRequest "Missing required fields: username"),
         [.getDetail 1 []]) :=
  ⟨rfl, rfl⟩

/-- C2 (amended): provided every required field name is present in the
stripped keyword map and the target record resolves — a truthy pk is
supplied and its detail GET succeeds, or the pk is falsy and the uniqueness
lookup returns a matching record — a write whose every supplied key equals
that existing record's value returns changed:false with the supplied or
adopted pk, and the only wire traffic is the resolving GET (no POST or
PATCH); keys absent from the caller's map play no part in the check. -/
theorem c2_noop_short_circuit (s : Schema) (c : Client) (pk0 : Option Nat)
    (n : Nat) (com fof foe : Bool) (kwargs : Params) (r : Record)
    (hreq : missingFields s (stripNull kwargs) = [])
    (heq : matchesExisting (stripNull kwargs) (some r) = true) :
    (n ≠ 0 → c.getDetail n [] = .ok r →
      write s c (some n) com fof foe kwargs
        = (.ok ⟨false, some n⟩, [.getDetail n []]))
    ∧ (pkTruthy pk0 = false →
       _lookup s c (!com) fof (stripNull kwargs)
         = (.ok (some r), [.getList (lookupParams s (stripNull kwargs))]) →
      write s c pk0 com fof foe kwargs
        = (.ok ⟨false, some r.id⟩,
           [.getList (lookupParams s (stripNull kwargs))])) := by
  constructor
  · intro hn hget
    have hpk : pkTruthy (some n) = true := by simp [pkTruthy, hn]
    have hres : resolveExisting s c (some n) com fof (stripNull kwargs)
        = (.ok (some n, some r), [.getDetail n []]) := by
      rw [resolveExisting, hpk]
      simp [get, read, hpk, hget]
    simp only [write, hres]
    simp only [writeFinish, hreq, heq]
    cases foe <;> simp [hpk]
  · intro hpk0 hlk
    rw [write, resolveExisting, hpk0]
    simp only [Bool.false_eq_true, if_false, hlk]
    simp only [writeFinish, hreq, heq]
    cases foe <;> cases hridz : pkTruthy (some r.id) <;> simp [hridz]

/-- C2 witness: the no-op short-circuit at a concrete input, on the
supplied-pk path. -/
theorem c2_witness :
    write userSchema (serverClient [⟨1, [("username", Value.str "alice")]⟩] 2)
        (some 1) false false true [("username", Value.str "alice")]
      = (.ok ⟨false, some 1⟩, [.getDetail 1 []]) :=
  (c2_noop_short_circuit userSchema
    (serverClient [⟨1, [("username", Value.str "alice")]⟩] 2) Option.none 1
    false false true
    [("username", Value.str "alice")] ⟨1, [("username", Value.str "alice")]⟩
    rfl rfl).1 (by decide) rfl

/-! Spec-side definitions of the convenience wrappers, written from the
spec's own words (section 4.3, "Convenience wrappers"), to be compared with
the embeddings of the source methods for C9. -/

/-- Spec wording: `get` = `read` with both fail flags forced true, returning
`results[0]` of the read payload. -/
def spec_get (c : Client) (pk : Option Nat) (kwargs : Params) :
    Except Err Record × List Call :=
  (match (read c pk true true kwargs).1 with
   | .error e => .error e
   | .ok resp =>
     match resp.results with
     | [] => .error (.crash "IndexError: list index out of range")
     | r :: _ => .ok r,
   (read c pk true true kwargs).2)

/-- Spec wording: `create` = `write(createOnMissing=true, forceOnExists
defaulting to false, …)` with no pk. -/
def spec_create (s : Schema) (c : Client) (fail_on_found force_on_exists : Bool)
    (kwargs : Params) : Except Err WriteResult × List Call :=
  write s c Option.none true fail_on_found force_on_exists kwargs

/-- Spec wording: `modify` = `write(createOnMissing defaulting to false,
forceOnExists=true, pk passed through, …)`. -/
def spec_modify (s : Schema) (c : Client) (pk : Option Nat)
    (create_on_missing : Bool) (kwargs : Params) :
    Except Err WriteResult × List Call :=
  write s c pk create_on_missing false true kwargs

/-- C9: the convenience wrappers add no independent logic: `get` is `read`
with both fail flags forced true returning `results[0]`; `create` is `write`
with `create_on_missing=true` and no pk; `modify` is `write` with
`force_on_exists=true` and the pk passed through. -/
theorem c9_wrappers_delegate :
    (∀ c pk kwargs, get c pk kwargs = spec_get c pk kwargs)
    ∧ (∀ s c fof foe kwargs, create s c fof foe kwargs = spec_create s c fof foe kwargs)
    ∧ (∀ s c pk com kwargs, modify s c pk com kwargs = spec_modify s c pk com kwargs) :=
  ⟨fun _ _ _ => rfl, fun _ _ _ _ _ => rfl, fun _ _ _ _ _ => rfl⟩

/-- C10: a zero primary key is indistinguishable from an omitted one, because
the code tests pk for truthiness: `read` issues the collection GET, and
`write` and `delete` run the uniqueness lookup exactly as with no pk, with
identical results and identical wire calls. -/
theorem c10_pk_zero_indistinguishable :
    (∀ c fnr fmr kwargs, read c (some 0) fnr fmr kwargs = read c Option.none fnr fmr kwargs)
    ∧ (∀ s c com fof foe kwargs,
        write s c (some 0) com fof foe kwargs = write s c Option.none com fof foe kwargs)
    ∧ (∀ s c fm kwargs, delete s c (some 0) fm kwargs = delete s c Option.none fm kwargs) := by
  refine ⟨fun c fnr fmr kwargs => rfl, fun s c com fof foe kwargs => ?_, fun s c fm kwargs => rfl⟩
  simp only [write, resolveExisting]
  cases hlk : _lookup s c (!com) fof (stripNull kwargs) with
  | mk res calls =>
    cases res with
    | error e => simp [pkTruthy]
    | ok x =>
      cases x with
      | some r => simp [pkTruthy]
      | none =>
        simp only [pkTruthy, Bool.not_false, bne_self_eq_false, Bool.false_eq_true, if_false]
        apply writeFinish_falsy_pk_eq
        · rfl
        · rfl
        · have hrp : lookupParams s (stripNull kwargs) ≠ [] :=
            lookupParams_ne_nil_of_lookup_ok hlk
          have hne : stripNull kwargs ≠ [] := by
            intro hs
            apply hrp
            rw [lookupParams, hs]
            rfl
          exact matchesExisting_none_eq_false hne (fun kv hkv => mem_stripNull_val_ne hkv)

/-- C4: with a falsy pk and filters containing no unique-field key, the
projection inside `_lookup` is empty and `lookup`, `write` and `delete` all
fail with the BadRequest of models.py:555-557 without issuing any HTTP
call. -/
theorem c4_lookup_requires_unique_filters (s : Schema) (c : Client)
    (fm ff com fof foe : Bool) (pk : Option Nat) (kwargs : Params)
    (hpk : pkTruthy pk = false)
    (h : ∀ k ∈ keysOf kwargs, k ∉ s.unique_fields) :
    _lookup s c fm ff kwargs = (.error (.BadRequest lookupBadRequestMsg), [])
    ∧ write s c pk com fof foe kwargs = (.error (.BadRequest lookupBadRequestMsg), [])
    ∧ delete s c pk fm kwargs = (.error (.BadRequest lookupBadRequestMsg), []) := by
  have hstripkeys : ∀ k ∈ keysOf (stripNull kwargs), k ∉ s.unique_fields := by
    intro k hk
    rw [keysOf] at hk
    obtain ⟨kv, hkv, hkv1⟩ := List.mem_map.mp hk
    exact hkv1 ▸ h kv.1 (List.mem_map.mpr ⟨kv, mem_of_mem_stripNull hkv, rfl⟩)
  have hl : ∀ (fm2 ff2 : Bool) (kw : Params),
      (∀ k ∈ keysOf kw, k ∉ s.unique_fields) →
      _lookup s c fm2 ff2 kw = (.error (.BadRequest lookupBadRequestMsg), []) := by
    intro fm2 ff2 kw hkw
    have hrp : lookupParams s kw = [] := by
      rw [lookupParams, List.filter_eq_nil_iff]
      intro kv hkv
      simp only [decide_eq_true_eq]
      exact hkw kv.1 (List.mem_map.mpr ⟨kv, hkv, rfl⟩)
    rw [_lookup, hrp]
    rfl
  refine ⟨hl fm ff kwargs h, ?_, ?_⟩
  · simp only [write, resolveExisting, hpk, Bool.false_eq_true, if_false,
      hl (!com) fof (stripNull kwargs) hstripkeys]
  · simp only [delete, hpk, Bool.false_eq_true, if_false, hl fm false kwargs h]

/-- C4 witness: the empty-projection BadRequest at a concrete input. -/
theorem c4_witness :
    _lookup userSchema (serverClient [] 1) false false [("email", Value.str "a@x.com")]
      = (.error (.BadRequest lookupBadRequestMsg), [])
    ∧ write userSchema (serverClient [] 1) Option.none false false false
        [("email", Value.str "a@x.com")]
      = (.error (.BadRequest lookupBadRequestMsg), [])
    ∧ delete userSchema (serverClient [] 1) Option.none false
        [("email", Value.str "a@x.com")]
      = (.error (.BadRequest lookupBadRequestMsg), []) :=
  c4_lookup_requires_unique_filters userSchema (serverClient [] 1)
    false false false false false Option.none [("email", Value.str "a@x.com")]
    rfl (by decide)

/-- C5: for a read without a pk, a zero count with `fail_on_no_results` set
fails with NotFound; a count of two or more with `fail_on_multiple_results`
set fails with MultipleResults reporting the actual count, whatever
`fail_on_no_results` is; with a truthy pk both checks are skipped and a
successful detail response is wrapped as a one-element payload. -/
theorem c5_read_postconditions (c : Client) (kwargs : Params) (resp : ListResp)
    (fnr fmr : Bool) (n : Nat) (obj : Record)
    (hlist : c.getList kwargs = .ok resp)
    (hdet : c.getDetail n kwargs = .ok obj)
    (hn : n ≠ 0) :
    (resp.count = 0 →
      read c Option.none true fmr kwargs
        = (.error (.NotFound "The requested object could not be found."),
           [.getList kwargs]))
    ∧ (2 ≤ resp.count →
      read c Option.none fnr true kwargs
        = (.error (.MultipleResults ("Expected one result, got " ++
            toString resp.count ++ ". Tighten your criteria.")),
           [.getList kwargs]))
    ∧ read c (some n) fnr fmr kwargs = (.ok ⟨1, [obj]⟩, [.getDetail n kwargs]) := by
  have hpk : pkTruthy (some n) = true := by simp [pkTruthy, hn]
  refine ⟨?_, ?_, ?_⟩
  · intro h0
    rw [read]
    simp [pkTruthy, hlist, h0]
  · intro h2
    have h0 : (resp.count == 0) = false := by
      have : resp.count ≠ 0 := by omega
      simpa using this
    rw [read]
    simp [pkTruthy, hlist, h0, h2]
  · rw [read, hpk]
    simp [hdet]

/-- C5 witness: an ambiguous lookup against a transport returning two
matching records fails with MultipleResults reporting the count of 2. -/
theorem c5_witness :
    read (serverClient [⟨1, [("username", Value.str "dup")]⟩,
                        ⟨2, [("username", Value.str "dup")]⟩] 3)
        Option.none true true [("username", Value.str "dup")]
      = (.error (.MultipleResults "Expected one result, got 2. Tighten your criteria."),
         [.getList [("username", Value.str "dup")]]) :=
  (c5_read_postconditions
      (serverClient [⟨1, [("username", Value.str "dup")]⟩,
                     ⟨2, [("username", Value.str "dup")]⟩] 3)
      [("username", Value.str "dup")]
      ⟨2, [⟨1, [("username", Value.str "dup")]⟩, ⟨2, [("username", Value.str "dup")]⟩]⟩
      true true 1 ⟨1, [("username", Value.str "dup")]⟩
      rfl rfl (by decide)).2.1 (by norm_num)

/-- C6: delete returns changed:false without a DELETE when the pk is falsy
and the uniqueness lookup finds nothing softly; whether the pk was supplied
directly or adopted from the record the lookup resolved, a DELETE answered
with a transport NotFound propagates under `fail_on_missing` and yields
changed:false otherwise, and a successful DELETE yields changed:true. -/
theorem c6_delete_behaviour (s : Schema) (c : Client) (kwargs : Params)
    (pk0 : Option Nat) (n : Nat) (m : String) (fm : Bool) (resp : ListResp)
    (r : Record) (t : List Record)
    (hn : n ≠ 0)
    (hpk0 : pkTruthy pk0 = false) :
    (c.getList (lookupParams s kwargs) = .ok resp → resp.count = 0 →
      lookupParams s kwargs ≠ [] →
      delete s c pk0 false kwargs
        = (.ok ⟨false⟩, [.getList (lookupParams s kwargs)]))
    ∧ (c.delete n = .error (.NotFound m) →
        delete s c (some n) true kwargs = (.error (.NotFound m), [.del n])
        ∧ delete s c (some n) false kwargs = (.ok ⟨false⟩, [.del n]))
    ∧ (c.delete n = .ok () →
        delete s c (some n) fm kwargs = (.ok ⟨true⟩, [.del n]))
    ∧ (c.getList (lookupParams s kwargs) = .ok resp → resp.count = 1 →
       resp.results = r :: t → lookupParams s kwargs ≠ [] →
        (c.delete r.id = .error (.NotFound m) →
          delete s c pk0 true kwargs
            = (.error (.NotFound m), [.getList (lookupParams s kwargs), .del r.id])
          ∧ delete s c pk0 false kwargs
            = (.ok ⟨false⟩, [.getList (lookupParams s kwargs), .del r.id]))
        ∧ (c.delete r.id = .ok () →
          delete s c pk0 fm kwargs
            = (.ok ⟨true⟩, [.getList (lookupParams s kwargs), .del r.id]))) := by
  have hpkn : pkTruthy (some n) = true := by simp [pkTruthy, hn]
  refine ⟨?_, ?_, ?_, ?_⟩
  · intro hlist h0 hrp
    have hrpE : (lookupParams s kwargs).isEmpty = false := by
      cases hh : lookupParams s kwargs with
      | nil => exact absurd hh hrp
      | cons a u => rfl
    have hlk : _lookup s c false false kwargs
        = (.ok Option.none, [.getList (lookupParams s kwargs)]) := by
      rw [_lookup, hrpE]
      simp [get, read, pkTruthy, hlist, h0]
    simp [delete, hpk0, hlk]
  · intro hdel
    constructor <;> simp [delete, deleteCall, hpkn, hdel]
  · intro hdel
    simp [delete, deleteCall, hpkn, hdel]
  · intro hlist h1 hres hrp
    have hrpE : (lookupParams s kwargs).isEmpty = false := by
      cases hh : lookupParams s kwargs with
      | nil => exact absurd hh hrp
      | cons a u => rfl
    have hlk : ∀ fm2 : Bool, _lookup s c fm2 false kwargs
        = (.ok (some r), [.getList (lookupParams s kwargs)]) := by
      intro fm2
      rw [_lookup, hrpE]
      simp [get, read, pkTruthy, hlist, h1, hres]
    constructor
    · intro hdel
      constructor <;> simp [delete, deleteCall, hpk0, hlk, hdel]
    · intro hdel
      simp [delete, deleteCall, hpk0, hlk, hdel]

/-- C6 witness: a direct-pk DELETE answered 404 under both fail_on_missing
settings, and a lookup-resolved delete that succeeds. -/
theorem c6_witness :
    (delete userSchema (serverClient [] 1) (some 5) true []
      = (.error (.NotFound notFoundMsg), [.del 5])
    ∧ delete userSchema (serverClient [] 1) (some 5) false []
      = (.ok ⟨false⟩, [.del 5]))
    ∧ delete userSchema (serverClient [⟨3, [("username", Value.str "gone")]⟩] 4)
        Option.none false [("username", Value.str "gone")]
      = (.ok ⟨true⟩, [.getList [("username", Value.str "gone")], .del 3]) :=
  ⟨(c6_delete_behaviour userSchema (serverClient [] 1) [] Option.none 5
      notFoundMsg false ⟨0, []⟩ ⟨0, []⟩ [] (by decide) rfl).2.1 rfl,
   ((c6_delete_behaviour userSchema
      (serverClient [⟨3, [("username", Value.str "gone")]⟩] 4)
      [("username", Value.str "gone")] Option.none 5 notFoundMsg false
      ⟨1, [⟨3, [("username", Value.str "gone")]⟩]⟩
      ⟨3, [("username", Value.str "gone")]⟩ []
      (by decide) rfl).2.2.2 rfl rfl rfl (by decide)).2 rfl⟩

/-- C3 counterexample: a field assignment covering the unique fields but not
every required field falsifies the claim as frozen: on the team schema
(resources/team.py: unique `name`, required `name` and `organization`), the
first create(name="ops") against an empty server dies in the required-field
check (models.py:387-391) with BadRequest instead of returning changed:true
with a fresh id. -/
theorem c3_counterexample :
    create teamSchema (serverClient [] 1) false false [("name", Value.str "ops")]
      = (.error (.BadRequest "Missing required fields: organization"),
         [.getList [("name", Value.str "ops")]]) :=
  rfl

/-- C3 (amended): create is idempotent when `force_on_exists` is false, for
every null-free field assignment with distinct keys, none of them `id`,
covering the unique fields and every required field.  Against an empty
server the first create issues the uniqueness lookup's GET and one POST and
returns changed:true with the fresh id; against the state the POST produced,
the same create issues only the lookup GET (no POST, no PATCH) and returns
changed:false with the same id, by the pk short-circuit. -/
theorem c3_create_idempotent (s : Schema) (kwargs : Params) (n : Nat)
    (hn : n ≠ 0)
    (hstrip : stripNull kwargs = kwargs)
    (hnd : (keysOf kwargs).Nodup)
    (hid : "id" ∉ keysOf kwargs)
    (hcov : ∀ u ∈ s.unique_fields, u ∈ keysOf kwargs)
    (hune : s.unique_fields ≠ [])
    (hreq : missingFields s kwargs = []) :
    create s (serverClient [] n) false false kwargs
      = (.ok ⟨true, some n⟩, [.getList (lookupParams s kwargs), .post kwargs])
    ∧ create s (serverClient [⟨n, kwargs⟩] (n + 1)) false false kwargs
      = (.ok ⟨false, some n⟩, [.getList (lookupParams s kwargs)]) := by
  obtain ⟨u, hu⟩ : ∃ u, u ∈ s.unique_fields :=
    List.exists_mem_of_ne_nil s.unique_fields hune
  obtain ⟨kv, hkv, hkv1⟩ := List.mem_map.mp (hcov u hu)
  have hkvrp : kv ∈ lookupParams s kwargs := by
    refine List.mem_filter.mpr ⟨hkv, ?_⟩
    rw [hkv1]
    exact decide_eq_true hu
  have hrp : lookupParams s kwargs ≠ [] := List.ne_nil_of_mem hkvrp
  have hrpE : (lookupParams s kwargs).isEmpty = false := by
    cases hh : lookupParams s kwargs with
    | nil => exact absurd hh hrp
    | cons a t => rfl
  have hm : matchesExisting kwargs Option.none = false := by
    refine matchesExisting_none_eq_false (List.ne_nil_of_mem hkv) ?_
    intro kv2 hkv2
    exact mem_stripNull_val_ne (hstrip ▸ hkv2)
  constructor
  · have hlk : _lookup s (serverClient [] n) false false kwargs
        = (.ok Option.none, [.getList (lookupParams s kwargs)]) := by
      rw [_lookup, hrpE]
      simp [get, read, pkTruthy, serverClient]
    rw [create, write, hstrip, resolveExisting]
    simp only [pkTruthy, Bool.false_eq_true, if_false, Bool.not_true, hlk]
    simp [writeFinish, hreq, hm, pkTruthy, serverClient]
  · have hmatch : recMatches (lookupParams s kwargs) ⟨n, kwargs⟩ = true :=
      recMatches_of_subset (fun x hx => List.mem_of_mem_filter hx) hnd hid
    have hlist : (serverClient [⟨n, kwargs⟩] (n + 1)).getList (lookupParams s kwargs)
        = .ok ⟨1, [⟨n, kwargs⟩]⟩ := by
      simp [serverClient, List.filter, hmatch]
    have hlk : _lookup s (serverClient [⟨n, kwargs⟩] (n + 1)) false false kwargs
        = (.ok (some ⟨n, kwargs⟩), [.getList (lookupParams s kwargs)]) := by
      rw [_lookup, hrpE]
      simp [get, read, pkTruthy, hlist]
    rw [create, write, hstrip, resolveExisting]
    simp only [pkTruthy, Bool.false_eq_true, if_false, Bool.not_true, hlk]
    simp [writeFinish, hreq, pkTruthy, hn]

/-- C3 witness: create-twice on the user schema with username alice. -/
theorem c3_witness :
    create userSchema (serverClient [] 1) false false [("username", Value.str "alice")]
      = (.ok ⟨true, some 1⟩,
         [.getList [("username", Value.str "alice")], .post [("username", Value.str "alice")]])
    ∧ create userSchema (serverClient [⟨1, [("username", Value.str "alice")]⟩] 2)
        false false [("username", Value.str "alice")]
      = (.ok ⟨false, some 1⟩, [.getList [("username", Value.str "alice")]]) :=
  c3_create_idempotent userSchema [("username", Value.str "alice")] 1
    (by decide) rfl (by decide) (by decide) (by decide) (by decide) rfl

/-- C7 counterexample: on a schema with required `name` and unique
`username`, a no-pk write omitting `name` (create_on_missing left false, no
matching record) fails with NotFound from the lookup, not with the
BadRequest listing `name` the claim promises, even though `name` is indeed
missing. -/
theorem c7_counterexample :
    write authorSchema (serverClient [] 1) Option.none false false true
        [("username", Value.str "bob")]
      = (.error (.NotFound notFoundMsg),
         [.getList [("username", Value.str "bob")]])
    ∧ "name" ∈ missingFields authorSchema [("username", Value.str "bob")] :=
  ⟨rfl, by decide⟩

/-- C7 (amended): provided the uniqueness lookup step returns (its projected
GET resolves a record, or none with create_on_missing set), a no-pk write on
a schema with required field `name` whose stripped fields omit `name` fails
with the BadRequest listing the missing required names, `name` among them,
and no POST or PATCH is ever issued (the calls are the lookup's GET, if
any). -/
theorem c7_missing_required_rejected (s : Schema) (c : Client)
    (com fof foe : Bool) (kwargs : Params) (ex : Option Record)
    (calls : List Call)
    (hlk : _lookup s c (!com) fof (stripNull kwargs) = (.ok ex, calls))
    (hname : "name" ∈ requiredNames s)
    (hmiss : "name" ∉ keysOf (stripNull kwargs)) :
    write s c Option.none com fof foe kwargs
      = (.error (.BadRequest ("Missing required fields: " ++
          String.intercalate ", " (missingFields s (stripNull kwargs)))), calls)
    ∧ "name" ∈ missingFields s (stripNull kwargs)
    ∧ ∀ cl ∈ calls, cl.isWrite = false := by
  have hmem : "name" ∈ missingFields s (stripNull kwargs) := by
    rw [missingFields]
    refine List.mem_filter.mpr ⟨hname, ?_⟩
    simpa using hmiss
  have hE : (missingFields s (stripNull kwargs)).isEmpty = false := by
    cases hh : missingFields s (stripNull kwargs) with
    | nil => exact absurd (hh ▸ hmem) (List.not_mem_nil "name")
    | cons a t => rfl
  refine ⟨?_, hmem, ?_⟩
  · rw [write, resolveExisting]
    simp only [pkTruthy, Bool.false_eq_true, if_false, hlk]
    cases ex with
    | none => simp [writeFinish, hE]
    | some r => simp [writeFinish, hE]
  · intro cl hcl
    have h := lookup_snd s c (!com) fof (stripNull kwargs)
    rw [hlk] at h
    simp only [] at h
    rcases h with h | h
    · rw [h] at hcl
      cases hcl
    · rw [h] at hcl
      rcases List.mem_singleton.mp hcl with rfl
      rfl

/-- C7 witness: the missing-required-field BadRequest once the lookup has
resolved a record. -/
theorem c7_witness :
    write authorSchema
        (serverClient [⟨1, [("username", Value.str "bob"), ("name", Value.str "Bob")]⟩] 2)
        Option.none false false true [("username", Value.str "bob")]
      = (.error (.BadRequest "Missing required fields: name"),
         [.getList [("username", Value.str "bob")]])
    ∧ "name" ∈ missingFields authorSchema [("username", Value.str "bob")] := by
  have h := c7_missing_required_rejected authorSchema
    (serverClient [⟨1, [("username", Value.str "bob"), ("name", Value.str "Bob")]⟩] 2)
    false false true [("username", Value.str "bob")]
    (some ⟨1, [("username", Value.str "bob"), ("name", Value.str "Bob")]⟩)
    [.getList [("username", Value.str "bob")]]
    rfl (by decide) (by decide)
  exact ⟨h.1, h.2.1⟩

/-- Appending a slash yields a string whose last character is a slash. -/
theorem endsWithSlash_append (x : String) : endsWithSlash (x ++ "/") = true := by
  cases x with
  | mk data =>
    show ((List.getLast? (data ++ ['/'])) == some '/') = true
    rw [List.getLast?_concat]
    rfl

/-- The unique-field names computed at schema construction are exactly the
names (attribute keys) of the declared fields whose unique flag is set. -/
theorem mkSchema_uniques (attrs : List (String × Field)) :
    ((attrs.map (fun kv => { kv.2 with name := kv.1 })).filter
        (fun f => f.unique)).map (fun f => f.name)
      = (attrs.filter (fun kv => kv.2.unique)).map Prod.fst := by
  induction attrs with
  | nil => rfl
  | cons a t ih =>
    cases hu : a.2.unique <;> simp [List.filter_cons, hu, ih]

/-- C8: schema construction fails whenever the endpoint is missing or empty;
a successfully constructed schema has an endpoint whose last character is a
slash (one is appended if absent) and its unique-field names are exactly the
names of the declared Field descriptors whose unique flag is true. -/
theorem c8_schema_construction (ep : Option String) (attrs : List (String × Field)) :
    (ep.getD "" = "" → mkSchema ep attrs = .error endpointErrMsg)
    ∧ (∀ s, mkSchema ep attrs = .ok s →
        endsWithSlash s.endpoint = true
        ∧ s.unique_fields = (attrs.filter (fun kv => kv.2.unique)).map Prod.fst) := by
  constructor
  · intro h
    rw [mkSchema, h]
    rfl
  · intro s hs
    rw [mkSchema] at hs
    by_cases h : ep.getD "" = ""
    · rw [h] at hs
      simp at hs
    · rw [if_neg h] at hs
      rw [Except.ok.injEq] at hs
      rw [← hs]
      refine ⟨?_, mkSchema_uniques attrs⟩
      cases hsl : endsWithSlash (ep.getD "") with
      | true => simp [hsl]
      | false => simp [hsl, endsWithSlash_append]

/-- C8 witness: a missing endpoint is refused, and the team schema built
from endpoint `/teams` (no trailing slash) ends in a slash and has exactly
`name` as its unique field. -/
theorem c8_witness :
    mkSchema Option.none teamAttrs = .error endpointErrMsg
    ∧ (endsWithSlash teamSchema.endpoint = true
       ∧ teamSchema.unique_fields
           = (teamAttrs.filter (fun kv => kv.2.unique)).map Prod.fst) :=
  ⟨(c8_schema_construction Option.none teamAttrs).1 rfl,
   (c8_schema_construction (some "/teams") teamAttrs).2 teamSchema (by rfl)⟩

end TowerCli
